import Mathlib

/-!
Verification development for the styled-jsx language server
(`vscode-styled-jsx-languageserver`).

The development shallowly embeds the extraction / masking core of the server
(`styled-jsx-utils`: scanner, AST template locator, character-preserving
masker, pipeline entry points) and the protocol-facing dispatchers of
`styled-jsx-server-main.ts`.

Modelling conventions:
* JS strings are `List Char`; JS string indices are `Nat`.
* The TypeScript parser (`ts.createSourceFile`) is an external library; it is
  abstracted as a function from text to a parse tree (`TsNodeTree`), and the
  per-node facts the source code reads off the real AST (parent kind, tag
  text, opening-element name, attribute names, `getStart`/`getEnd`) are the
  fields of the tree model.
* JS runtime exceptions are explicit: `Except MaskErr` for the masker
  (`TypeError` on an `undefined` capture group, member access on
  `undefined` when the range list is empty), and an explicit escape flag for
  the AST walk.
* JS regexes are implemented directly: `String.replace(/./g, " ")` spares
  line terminators (JS `.` does not match them), the expression pattern
  `(\$\x7b.*\x7d)|(&&|\|\|)` is implemented with its greedy backtracking
  semantics, and the scanner pattern with its lazy `\s*?` and greedy
  `(global)?` semantics.
-/

/-- `{start, end}` character offsets delimiting the CSS payload of a located
template literal (the `StyledJsxTaggedTemplate` interface of the source). -/
structure StyledJsxTaggedTemplate where
  start : Nat
  «end» : Nat
deriving DecidableEq, Repr

/-- Runtime faults of the masker.  `emptyRangeList` models the `TypeError`
raised by `styledJsxTaggedTemplates[0].start` on an empty array;
`undefinedGroup` models the `TypeError` raised by `p1.replace` when the
second alternative (`&&`/`||`) of the expression pattern matched, so the
first capture group `p1` is `undefined`. -/
inductive MaskErr where
  | emptyRangeList
  | undefinedGroup
deriving DecidableEq, Repr

deriving instance DecidableEq for Except

/-- JS line terminators: the characters NOT matched by `.` in a JS regex. -/
def isLineTerm (c : Char) : Bool :=
  c == '\n' || c == '\r' || c == '\u2028' || c == '\u2029'

/-- The effect of `String.replace(/./g, " ")` on a single character. -/
def maskChar (c : Char) : Char :=
  if isLineTerm c then c else ' '

/-- `text.replace(/./g, " ")`: every character becomes a space except line
terminators, which JS `.` does not match and which therefore survive. -/
def spaceOutDot (l : List Char) : List Char :=
  l.map maskChar

/-- `text.slice(a, b)` for non-negative JS indices (clamping semantics). -/
def sliceJs (l : List Char) (a b : Nat) : List Char :=
  (l.take b).drop a

/-- Index of the last occurrence of `c`, if any (used for the greedy
backtracking of `.*` before the closing brace of an interpolation). -/
def lastIdxOf (c : Char) : List Char → Option Nat
  | [] => none
  | a :: l =>
    match lastIdxOf c l with
    | some k => some (k + 1)
    | none => if a == c then some 0 else none

/-- Length of the match of the first alternative `\$\x7b.*\x7d` of
`expressionPattern` at the head of `s`, if it matches there.  `.*` is greedy
and does not cross line terminators, so the match runs to the last closing
brace in the maximal line segment after the opening `$\x7b`. -/
def interpolationMatchLen : List Char → Option Nat
  | c1 :: c2 :: rest =>
    if c1 = '$' ∧ c2 = '{' then
      match lastIdxOf '}' (rest.takeWhile (fun c => !isLineTerm c)) with
      | some k => some (k + 3)
      | none => none
    else none
  | _ => none

/-- Head-of-input test for the second alternative `&&|\|\|` of
`expressionPattern`. -/
def isOpHead : List Char → Bool
  | c1 :: c2 :: _ => (c1 == '&' && c2 == '&') || (c1 == '|' && c2 == '|')
  | _ => false

/-- One left-to-right pass of
`slice.replace(expressionPattern, (str, p1) => p1.replace(/./g, " "))` where
`expressionPattern = (\$\x7b.*\x7d)|(&&|\|\|)`.  When the first alternative
matches, `p1` is the whole match and is blanked to spaces of equal count;
when the second alternative (`&&` or `\|\|`) matches, `p1` is `undefined`
and `p1.replace` raises a `TypeError`, modelled as `.error .undefinedGroup`.
`fuel` is an upper bound on the number of scan steps; call sites use the
slice length, which always suffices. -/
def expressionMaskLoop : Nat → List Char → Except MaskErr (List Char)
  | 0, s => .ok s
  | fuel + 1, s =>
    match interpolationMatchLen s with
    | some matchLen =>
      (expressionMaskLoop fuel (s.drop matchLen)).map
        (fun t => List.replicate matchLen ' ' ++ t)
    | none =>
      if isOpHead s then .error .undefinedGroup
      else
        match s with
        | [] => .ok []
        | c :: rest => (expressionMaskLoop fuel rest).map (fun t => c :: t)

/-- The masking of one template slice (the callback-driven `replace` applied
to `text.slice(range.start, range.end)`). -/
def maskTemplateSlice (s : List Char) : Except MaskErr (List Char) :=
  expressionMaskLoop s.length s

/-- The per-range loop of `replaceAllWithSpacesExceptCss`: for each range
emit the masked template slice, then (between consecutive ranges) the
space-masked gap, and after the final range the space-masked tail. -/
def maskLoop (text : List Char) : List StyledJsxTaggedTemplate → Except MaskErr (List Char)
  | [] => .ok []
  | [r] =>
    (maskTemplateSlice (sliceJs text r.start r.«end»)).map
      (fun body => body ++ spaceOutDot (sliceJs text r.«end» text.length))
  | r :: r2 :: rest =>
    match maskTemplateSlice (sliceJs text r.start r.«end») with
    | .error e => .error e
    | .ok body =>
      match maskLoop text (r2 :: rest) with
      | .error e => .error e
      | .ok tail => .ok (body ++ spaceOutDot (sliceJs text r.«end» r2.start) ++ tail)

/-- `replaceAllWithSpacesExceptCss` from `styled-jsx-utils`: the
character-preserving masker.  On an empty range list the very first
statement `text.slice(0, styledJsxTaggedTemplates[0].start)` dereferences
`undefined`, modelled as `.error .emptyRangeList`. -/
def replaceAllWithSpacesExceptCss (text : List Char)
    (styledJsxTaggedTemplates : List StyledJsxTaggedTemplate) :
    Except MaskErr (List Char) :=
  match styledJsxTaggedTemplates with
  | [] => .error .emptyRangeList
  | r0 :: rest =>
    match maskLoop text (r0 :: rest) with
    | .error e => .error e
    | .ok tailStr => .ok (spaceOutDot (sliceJs text 0 r0.start) ++ tailStr)

/-- The ordering invariant of located template ranges (spec §3: ranges are
in source order, ascending and non-overlapping, and inside the document). -/
def rangesOrdered (len : Nat) : List StyledJsxTaggedTemplate → Bool
  | [] => true
  | [r] => decide (r.start ≤ r.«end») && decide (r.«end» ≤ len)
  | r :: r2 :: rest =>
    decide (r.start ≤ r.«end») && decide (r.«end» ≤ r2.start) &&
      rangesOrdered len (r2 :: rest)

/-- Position `p` lies outside every located template range. -/
def outsideAll (rs : List StyledJsxTaggedTemplate) (p : Nat) : Bool :=
  rs.all (fun r => decide (p < r.start) || decide (r.«end» ≤ p))

/-! ## Candidate-offset scanner (`styledJsxPattern` / `getApproximateStyledJsxOffsets`)

The compiled pattern is
`((<\s*?style\s*?(global)?\s*?jsx\s*?(global)?\s*?>)|(\s*?css\s*?\x60)|(\s*?css\.global\s*?\x60)|(\s*?css\.resolve\s*?\x60))/g`.
`exec` in a `while` loop collects `lastIndex` (the match end) after every
match; on the final failing `exec` JS resets `lastIndex` to `0`, so each
invocation is stateless from the caller's point of view and scanning always
starts at offset `0`. -/

/-- Characters matched by `\s` in a JS regex (the ones relevant here). -/
def isJsSpace (c : Char) : Bool :=
  c == ' ' || c == '\t' || c == '\n' || c == '\r' || c == '\x0b' ||
    c == '\x0c' || c == '\u00A0' || c == '\uFEFF'

/-- Consume the literal `lit` at the head of `s`, yielding the remainder. -/
def consumeLit : List Char → List Char → Option (List Char)
  | [], s => some s
  | _ :: _, [] => none
  | a :: l, c :: s => if a == c then consumeLit l s else none

/-- Lazy `\s*?` followed by the continuation `k`: try `k` after consuming as
few whitespace characters as possible. -/
def lazyWsThen (k : List Char → Option (List Char)) : List Char → Option (List Char)
  | [] => k []
  | c :: rest =>
    match k (c :: rest) with
    | some r => some r
    | none => if isJsSpace c then lazyWsThen k rest else none

/-- Greedy optional literal `(lit)?` followed by the continuation `k`: try
consuming `lit` first, backtrack to not consuming it. -/
def optLitThen (lit : List Char) (k : List Char → Option (List Char))
    (s : List Char) : Option (List Char) :=
  match consumeLit lit s with
  | some s1 =>
    match k s1 with
    | some r => some r
    | none => k s
  | none => k s

/-- First alternative of the scanner pattern:
`<\s*?style\s*?(global)?\s*?jsx\s*?(global)?\s*?>`. -/
def matchStyleTagOpen (s : List Char) : Option (List Char) :=
  match consumeLit ("<").data s with
  | none => none
  | some s1 =>
    lazyWsThen (fun s2 =>
      match consumeLit ("style").data s2 with
      | none => none
      | some s3 =>
        lazyWsThen (fun s4 =>
          optLitThen ("global").data (fun s5 =>
            lazyWsThen (fun s6 =>
              match consumeLit ("jsx").data s6 with
              | none => none
              | some s7 =>
                lazyWsThen (fun s8 =>
                  optLitThen ("global").data (fun s9 =>
                    lazyWsThen (fun s10 => consumeLit (">").data s10) s9) s8) s7)
              s5) s4) s3) s1

/-- The `\s*?OPENER\s*?\x60` alternatives of the scanner pattern, where
`OPENER` is `css`, `css.global` or `css.resolve`. -/
def matchCssOpener (opener : List Char) (s : List Char) : Option (List Char) :=
  lazyWsThen (fun s1 =>
    match consumeLit opener s1 with
    | none => none
    | some s2 => lazyWsThen (fun s3 => consumeLit ("\x60").data s3) s2) s

/-- Match of the full scanner pattern starting exactly at offset `i`,
returning the match END offset (what `exec` leaves in `lastIndex`).
Alternatives are tried in the pattern's order. -/
def matchStyledJsxAt (text : List Char) (i : Nat) : Option Nat :=
  let s := text.drop i
  match matchStyleTagOpen s with
  | some r => some (text.length - r.length)
  | none =>
    match matchCssOpener ("css").data s with
    | some r => some (text.length - r.length)
    | none =>
      match matchCssOpener ("css.global").data s with
      | some r => some (text.length - r.length)
      | none =>
        match matchCssOpener ("css.resolve").data s with
        | some r => some (text.length - r.length)
        | none => none

/-- Leftmost match of the scanner pattern starting at offset `pos` or later,
returning its end offset (`exec` semantics on a `g` regex). -/
def firstMatchEndFrom (text : List Char) (pos : Nat) : Option Nat :=
  (List.range (text.length + 1)).findSome?
    (fun i => if i < pos then none else matchStyledJsxAt text i)

/-- The `while (styledJsxPattern.exec(doc))` loop: collect the `lastIndex`
after each match.  Every alternative consumes at least one character, so
match ends strictly increase and `text.length + 1` rounds of fuel always
suffice. -/
def styledJsxExecLoop (text : List Char) : Nat → Nat → List Nat
  | 0, _ => []
  | fuel + 1, pos =>
    match firstMatchEndFrom text pos with
    | none => []
    | some e => e :: styledJsxExecLoop text fuel e

/-- `getApproximateStyledJsxOffsets` from `styled-jsx-utils`. -/
def getApproximateStyledJsxOffsets (text : List Char) : List Nat :=
  styledJsxExecLoop text (text.length + 1) 0

/-! ## AST template locator (`styled-jsx-utils`)

The TypeScript AST is external; the model keeps exactly the structure the
source reads: for a candidate template node, its parent (tagged-template
expression with the tag's `getText()`, JSX expression container with its own
parent, or anything else) and its `getStart()`/`getEnd()` offsets; for the
walk, the node classification used by `walk` (`isJSDoc`, comment trivia,
`isToken`, `EndOfFileToken`) plus the possibility that `forEachChild` throws
mid-iteration (the source guards it with `try`/`catch`, commenting that an
error might be thrown if the script kind is not known). -/

/-- Model of `node.parent.parent` as read by `isStyledJsxTemplate`: either a
JSX element with its opening element's tag name text and the names of its
attribute properties (`none` for nameless properties such as spreads), or
any other node. -/
inductive TsGrandparentNode where
  | jsxElement (openingTagName : String) (attributeNames : List (Option String))
  | otherNode
deriving DecidableEq, Repr

/-- Model of `templateNode.parent` as read by `isStyledJsxTaggedTemplate`
and `isStyledJsxTemplate`. -/
inductive TsParentNode where
  | taggedTemplateExpression (tagText : String)
  | jsxExpression (grandparent : TsGrandparentNode)
  | otherParent
deriving DecidableEq, Repr

/-- A template-literal node (`ts.TemplateExpression` or
`ts.NoSubstitutionTemplateLiteral`) as consumed by the qualification checks
and the range computation: its parent context and its `getStart()` /
`getEnd()` offsets. -/
structure TemplateNodeModel where
  parent : TsParentNode
  startPos : Nat
  endPos : Nat
deriving DecidableEq, Repr

/-- `String.prototype.includes`: substring containment test. -/
def includesAux (sub : List Char) : List Char → Bool
  | [] => sub.isEmpty
  | a :: l => sub.isPrefixOf (a :: l) || includesAux sub l

/-- `s.includes(sub)` for JS strings. -/
def jsIncludes (s sub : String) : Bool :=
  includesAux sub.data s.data

/-- `isStyledJsxTaggedTemplate` from `styled-jsx-utils`: the immediate
parent is a tagged-template expression whose tag text contains `css`. -/
def isStyledJsxTaggedTemplate (templateNode : TemplateNodeModel) : Bool :=
  match templateNode.parent with
  | .taggedTemplateExpression tagText => jsIncludes tagText ("css")
  | _ => false

/-- `isStyledJsxTemplate` from `styled-jsx-utils`: the parent is a JSX
expression whose own parent is a JSX element with opening tag name exactly
`style` carrying an attribute property named `jsx`. -/
def isStyledJsxTemplate (node : TemplateNodeModel) : Bool :=
  match node.parent with
  | .jsxExpression grandparent =>
    match grandparent with
    | .jsxElement openingTagName attributeNames =>
      if openingTagName != ("style") then false
      else
        attributeNames.any (fun name? =>
          match name? with
          | some n => n == ("jsx")
          | none => false)
    | .otherNode => false
  | _ => false

/-- Parse-tree model for `walk`.  `tokenNode` carries the result of
`getTemplateString` on that token (`none` when the token is not a template
head / template literal).  `internalNode` carries the children yielded by
`forEachChild` together with an optional fault position: `some k` means
`forEachChild` throws after yielding `k` children (the hazard the source
wraps in `try`/`catch`). -/
inductive TsNodeTree where
  | jsDocNode (children : List TsNodeTree)
  | commentTrivia (children : List TsNodeTree)
  | endOfFileToken
  | tokenNode (template : Option TemplateNodeModel)
  | internalNode (children : List TsNodeTree) (forEachChildFault : Option Nat)
deriving Repr

/-- The callback `walk(source, node => ...)` passes in
`findStyledJsxTaggedTemplate`: when `getTemplateString` produced a template
node that qualifies, push `{start: getStart()+1, end: getEnd()-1}`. -/
def collectTemplate (template? : Option TemplateNodeModel)
    (acc : List StyledJsxTaggedTemplate) : List StyledJsxTaggedTemplate :=
  match template? with
  | none => acc
  | some t =>
    if isStyledJsxTaggedTemplate t || isStyledJsxTemplate t then
      acc ++ [⟨t.startPos + 1, t.endPos - 1⟩]
    else acc

mutual
/-- `walk` from `styled-jsx-utils`, with the collector callback inlined and
the exception flow explicit: the second component is `true` when an
exception escapes the call (it never does — every branch either cannot
throw or wraps `forEachChild` in `try`/`catch`). -/
def walkNode : TsNodeTree → List StyledJsxTaggedTemplate →
    List StyledJsxTaggedTemplate × Bool
  | .jsDocNode _, acc => (acc, false)
  | .commentTrivia _, acc => (acc, false)
  | .endOfFileToken, acc => (acc, false)
  | .tokenNode template?, acc => (collectTemplate template? acc, false)
  | .internalNode children fault, acc =>
    ((walkChildren children fault acc).1, false)

/-- The `node.forEachChild(child => walk(child, callback))` iteration: the
escape flag is `true` when `forEachChild` itself throws at the fault
position or a recursive `walk` lets an exception through. -/
def walkChildren : List TsNodeTree → Option Nat → List StyledJsxTaggedTemplate →
    List StyledJsxTaggedTemplate × Bool
  | _, some 0, acc => (acc, true)
  | [], _, acc => (acc, false)
  | c :: cs, fault, acc =>
    match walkNode c acc with
    | (acc1, true) => (acc1, true)
    | (acc1, false) => walkChildren cs (fault.map (fun n => n - 1)) acc1
end

/-- `findStyledJsxTaggedTemplate` from `styled-jsx-utils`.  The parse of the
document text (`ts.createSourceFile`) is the caller-supplied tree; the
`cursorOffsets` parameter is declared but never used by the source. -/
def findStyledJsxTaggedTemplate (sourceTree : TsNodeTree)
    (_cursorOffsets : List Nat) : List StyledJsxTaggedTemplate :=
  (walkNode sourceTree []).1

/-! ## Pipeline entry points and server dispatchers

`parse` stands for `ts.createSourceFile` (external parser): a function from
document text to parse tree.  A dispatcher result of `.error e` models a JS
exception propagating out of the handler; `.ok none` (respectively
`.ok []`) models the handler's `return null` (respectively `return []`). -/

/-- `getStyledJsx` from `styled-jsx-utils`.  `none` models `return
undefined`; `some r` models the call of `replaceAllWithSpacesExceptCss`
(whose fault, if any, propagates as the JS exception it raises). -/
def getStyledJsx (text : List Char) (parse : List Char → TsNodeTree) :
    Option (Except MaskErr (List Char)) :=
  let styledJsxOffsets := getApproximateStyledJsxOffsets text
  if styledJsxOffsets.length > 0 then
    let styledJsxTaggedTemplates :=
      findStyledJsxTaggedTemplate (parse text) styledJsxOffsets
    if styledJsxTaggedTemplates.length > 0 then
      some (replaceAllWithSpacesExceptCss text styledJsxTaggedTemplates)
    else none
  else none

/-- `getStyledJsxUnderCursor` from `styled-jsx-utils`: locate templates with
the cursor offset as the (unused) seed, then mask only when the FIRST
located range strictly contains the cursor. -/
def getStyledJsxUnderCursor (text : List Char) (parse : List Char → TsNodeTree)
    (cursorOffset : Nat) : Option (Except MaskErr (List Char)) :=
  let styledJsxTaggedTemplates :=
    findStyledJsxTaggedTemplate (parse text) [cursorOffset]
  match styledJsxTaggedTemplates with
  | [] => none
  | t0 :: _ =>
    if t0.start < cursorOffset && cursorOffset < t0.«end» then
      some (replaceAllWithSpacesExceptCss text styledJsxTaggedTemplates)
    else none

/-- The `ServerCapabilities` record returned by `connection.onInitialize`
(`styled-jsx-server-main.ts`), with `completionProvider` as the optional
`resolveProvider` flag (present only with client snippet support). -/
structure StyledJsxServerCapabilities where
  textDocumentSyncFull : Bool
  completionProvider : Option Bool
  hoverProvider : Bool
  documentSymbolProvider : Bool
  referencesProvider : Bool
  definitionProvider : Bool
  documentHighlightProvider : Bool
  codeActionProvider : Bool
  renameProvider : Bool
  colorProvider : Bool
deriving DecidableEq, Repr

/-- The capabilities literal of `connection.onInitialize`. -/
def initializeCapabilities (snippetSupport : Bool) : StyledJsxServerCapabilities where
  textDocumentSyncFull := true
  completionProvider := if snippetSupport then some false else none
  hoverProvider := true
  documentSymbolProvider := true
  referencesProvider := true
  definitionProvider := true
  documentHighlightProvider := true
  codeActionProvider := true
  renameProvider := false
  colorProvider := true

/-- `connection.onCompletion`: look the document up (`none` when absent),
then delegate through `getStyledJsxUnderCursor`; `return null` otherwise. -/
def onCompletionHandler {α : Type} (document : Option (List Char))
    (parse : List Char → TsNodeTree) (cursorOffset : Nat)
    (doComplete : List Char → α) : Except MaskErr (Option α) :=
  match document with
  | none => .ok none
  | some text =>
    match getStyledJsxUnderCursor text parse cursorOffset with
    | some (.ok cssText) => .ok (some (doComplete cssText))
    | some (.error e) => .error e
    | none => .ok none

/-- The shared shape of `connection.onHover`, `onDocumentSymbol`,
`onDefinition`, `onDocumentHighlight`, `onReferences`, `onCodeAction` and
`onRenameRequest`: whole-document extraction, delegate on success, `return
null` otherwise. -/
def onNullableHandler {α : Type} (document : Option (List Char))
    (parse : List Char → TsNodeTree)
    (service : List Char → α) : Except MaskErr (Option α) :=
  match document with
  | none => .ok none
  | some text =>
    match getStyledJsx text parse with
    | some (.ok cssText) => .ok (some (service cssText))
    | some (.error e) => .error e
    | none => .ok none

/-- `connection.onHover`. -/
def onHoverHandler {α : Type} (document : Option (List Char))
    (parse : List Char → TsNodeTree) (doHover : List Char → α) :
    Except MaskErr (Option α) :=
  onNullableHandler document parse doHover

/-- `connection.onDocumentSymbol`. -/
def onDocumentSymbolHandler {α : Type} (document : Option (List Char))
    (parse : List Char → TsNodeTree) (findDocumentSymbols : List Char → α) :
    Except MaskErr (Option α) :=
  onNullableHandler document parse findDocumentSymbols

/-- `connection.onDefinition`. -/
def onDefinitionHandler {α : Type} (document : Option (List Char))
    (parse : List Char → TsNodeTree) (findDefinition : List Char → α) :
    Except MaskErr (Option α) :=
  onNullableHandler document parse findDefinition

/-- `connection.onDocumentHighlight`. -/
def onDocumentHighlightHandler {α : Type} (document : Option (List Char))
    (parse : List Char → TsNodeTree) (findDocumentHighlights : List Char → α) :
    Except MaskErr (Option α) :=
  onNullableHandler document parse findDocumentHighlights

/-- `connection.onReferences`. -/
def onReferencesHandler {α : Type} (document : Option (List Char))
    (parse : List Char → TsNodeTree) (findReferences : List Char → α) :
    Except MaskErr (Option α) :=
  onNullableHandler document parse findReferences

/-- `connection.onCodeAction`. -/
def onCodeActionHandler {α : Type} (document : Option (List Char))
    (parse : List Char → TsNodeTree) (doCodeActions : List Char → α) :
    Except MaskErr (Option α) :=
  onNullableHandler document parse doCodeActions

/-- `connection.onRenameRequest`: wired up exactly like the other nullable
dispatchers, delegating to `cssLanguageService.doRename`. -/
def onRenameRequestHandler {α : Type} (document : Option (List Char))
    (parse : List Char → TsNodeTree) (doRename : List Char → α) :
    Except MaskErr (Option α) :=
  onNullableHandler document parse doRename

/-- `connection.onDocumentColor` and `onColorPresentation`: same extraction,
but the fallback result is the empty array. -/
def onEmptyArrayHandler {α : Type} (document : Option (List Char))
    (parse : List Char → TsNodeTree) (service : List Char → List α) :
    Except MaskErr (List α) :=
  match document with
  | none => .ok []
  | some text =>
    match getStyledJsx text parse with
    | some (.ok cssText) => .ok (service cssText)
    | some (.error e) => .error e
    | none => .ok []

/-- `connection.onDocumentColor`. -/
def onDocumentColorHandler {α : Type} (document : Option (List Char))
    (parse : List Char → TsNodeTree) (findDocumentColors : List Char → List α) :
    Except MaskErr (List α) :=
  onEmptyArrayHandler document parse findDocumentColors

/-- `connection.onColorPresentation`. -/
def onColorPresentationHandler {α : Type} (document : Option (List Char))
    (parse : List Char → TsNodeTree) (getColorPresentations : List Char → List α) :
    Except MaskErr (List α) :=
  onEmptyArrayHandler document parse getColorPresentations

/-- `validateTextDocument`: the diagnostics published for the document —
`doValidation`'s result when styled-jsx is present, otherwise
`clearDiagnostics` publishes the empty list. -/
def validateTextDocument {α : Type} (text : List Char)
    (parse : List Char → TsNodeTree) (doValidation : List Char → List α) :
    Except MaskErr (List α) :=
  match getStyledJsx text parse with
  | some (.ok cssText) => .ok (doValidation cssText)
  | some (.error e) => .error e
  | none => .ok []

/-! ## Length preservation of the masker -/

theorem length_spaceOutDot (l : List Char) : (spaceOutDot l).length = l.length :=
  List.length_map _ _

theorem length_sliceJs (l : List Char) (a b : Nat) (hab : a ≤ b)
    (hb : b ≤ l.length) : (sliceJs l a b).length = b - a := by
  simp [sliceJs, List.length_drop, List.length_take]
  omega

theorem lastIdxOf_lt_length (c : Char) (l : List Char) (k : Nat)
    (h : lastIdxOf c l = some k) : k < l.length := by
  induction l generalizing k with
  | nil => simp [lastIdxOf] at h
  | cons a l ih =>
    simp only [lastIdxOf] at h
    cases hrec : lastIdxOf c l with
    | some k0 =>
      rw [hrec] at h
      cases h
      simpa using ih k0 hrec
    | none =>
      rw [hrec] at h
      by_cases hac : (a == c) = true
      · rw [if_pos hac] at h
        cases h
        simp
      · rw [if_neg hac] at h
        simp at h

theorem interpolationMatchLen_bounds (s : List Char) (matchLen : Nat)
    (h : interpolationMatchLen s = some matchLen) :
    1 ≤ matchLen ∧ matchLen ≤ s.length := by
  match s with
  | [] => simp [interpolationMatchLen] at h
  | [c] => simp [interpolationMatchLen] at h
  | c1 :: c2 :: rest =>
    simp only [interpolationMatchLen] at h
    split at h
    · cases hidx : lastIdxOf '}' (rest.takeWhile (fun c => !isLineTerm c)) with
      | some k =>
        rw [hidx] at h
        cases h
        have hk := lastIdxOf_lt_length _ _ _ hidx
        have hseg : (rest.takeWhile (fun c => !isLineTerm c)).length ≤ rest.length :=
          (List.takeWhile_sublist _).length_le
        simp only [List.length_cons]
        omega
      | none =>
        rw [hidx] at h
        simp at h
    · simp at h

theorem expressionMaskLoop_length (fuel : Nat) (s t : List Char)
    (hfuel : s.length ≤ fuel) (h : expressionMaskLoop fuel s = .ok t) :
    t.length = s.length := by
  induction fuel generalizing s t with
  | zero =>
    have : s = [] := List.length_eq_zero.mp (Nat.le_zero.mp hfuel)
    subst this
    simp only [expressionMaskLoop] at h
    cases h
    rfl
  | succ fuel ih =>
    simp only [expressionMaskLoop] at h
    split at h
    · rename_i matchLen hm
      obtain ⟨hlo, hhi⟩ := interpolationMatchLen_bounds s matchLen hm
      cases hrec : expressionMaskLoop fuel (s.drop matchLen) with
      | ok t0 =>
        rw [hrec] at h
        simp only [Except.map] at h
        cases h
        have hdroplen : (s.drop matchLen).length ≤ fuel := by
          simp only [List.length_drop]
          omega
        have hlen := ih (s.drop matchLen) t0 hdroplen hrec
        simp only [List.length_append, List.length_replicate, hlen, List.length_drop]
        omega
      | error e =>
        rw [hrec] at h
        simp [Except.map] at h
    · split at h
      · simp at h
      · cases s with
        | nil =>
          cases h
          rfl
        | cons c rest =>
          have h2 : (expressionMaskLoop fuel rest).map (fun t => c :: t) =
              Except.ok t := h
          cases hrec : expressionMaskLoop fuel rest with
          | ok t0 =>
            rw [hrec] at h2
            simp only [Except.map] at h2
            cases h2
            have hrestlen : rest.length ≤ fuel := by
              simp only [List.length_cons] at hfuel
              omega
            have := ih rest t0 hrestlen hrec
            simp [this]
          | error e =>
            rw [hrec] at h2
            simp [Except.map] at h2

theorem maskTemplateSlice_length (s t : List Char)
    (h : maskTemplateSlice s = .ok t) : t.length = s.length :=
  expressionMaskLoop_length s.length s t (Nat.le_refl _) h

theorem rangesOrdered_head (len : Nat) (r : StyledJsxTaggedTemplate)
    (rest : List StyledJsxTaggedTemplate)
    (h : rangesOrdered len (r :: rest) = true) :
    r.start ≤ r.«end» ∧ r.«end» ≤ len := by
  induction rest generalizing r with
  | nil =>
    simp only [rangesOrdered, Bool.and_eq_true, decide_eq_true_eq] at h
    exact h
  | cons r2 rest ih =>
    simp only [rangesOrdered, Bool.and_eq_true, decide_eq_true_eq] at h
    obtain ⟨⟨h1, h2⟩, h3⟩ := h
    have := ih r2 (by
      simpa only [rangesOrdered, Bool.and_eq_true, decide_eq_true_eq] using h3)
    omega

theorem maskLoop_length (text : List Char) (rest : List StyledJsxTaggedTemplate)
    (r : StyledJsxTaggedTemplate) (t : List Char)
    (hord : rangesOrdered text.length (r :: rest) = true)
    (h : maskLoop text (r :: rest) = .ok t) :
    t.length = text.length - r.start := by
  induction rest generalizing r t with
  | nil =>
    obtain ⟨h1, h2⟩ := rangesOrdered_head text.length r [] hord
    simp only [maskLoop] at h
    cases hbody : maskTemplateSlice (sliceJs text r.start r.«end») with
    | ok body =>
      rw [hbody] at h
      simp only [Except.map] at h
      cases h
      have hb := maskTemplateSlice_length _ _ hbody
      rw [length_sliceJs text r.start r.«end» h1 h2] at hb
      simp only [List.length_append, hb, length_spaceOutDot,
        length_sliceJs text r.«end» text.length h2 (Nat.le_refl _)]
      omega
    | error e =>
      rw [hbody] at h
      simp [Except.map] at h
  | cons r2 rest ih =>
    simp only [rangesOrdered, Bool.and_eq_true, decide_eq_true_eq] at hord
    obtain ⟨⟨h1, h2⟩, h3⟩ := hord
    obtain ⟨h4, h5⟩ := rangesOrdered_head text.length r2 rest h3
    simp only [maskLoop] at h
    cases hbody : maskTemplateSlice (sliceJs text r.start r.«end») with
    | ok body =>
      rw [hbody] at h
      cases hrec : maskLoop text (r2 :: rest) with
      | ok tail =>
        rw [hrec] at h
        cases h
        have hb := maskTemplateSlice_length _ _ hbody
        rw [length_sliceJs text r.start r.«end» h1 (by omega)] at hb
        have ht := ih r2 tail h3 hrec
        simp only [List.length_append, hb, ht, length_spaceOutDot,
          length_sliceJs text r.«end» r2.start h2 (by omega)]
        omega
      | error e =>
        rw [hrec] at h
        simp at h
    | error e =>
      rw [hbody] at h
      simp at h

/-- Claim C1: for every source document and every non-empty ordered list of
located template ranges, the masked text produced by
`replaceAllWithSpacesExceptCss`, whenever it produces one, has exactly the
same character length as the original document text. -/
theorem claim_C1_mask_preserves_length (text : List Char)
    (styledJsxTaggedTemplates : List StyledJsxTaggedTemplate) (out : List Char)
    (hord : rangesOrdered text.length styledJsxTaggedTemplates = true)
    (h : replaceAllWithSpacesExceptCss text styledJsxTaggedTemplates = .ok out) :
    out.length = text.length := by
  match styledJsxTaggedTemplates, hord, h with
  | [], _, h => simp [replaceAllWithSpacesExceptCss] at h
  | r0 :: rest, hord, h =>
    obtain ⟨h1, h2⟩ := rangesOrdered_head text.length r0 rest hord
    simp only [replaceAllWithSpacesExceptCss] at h
    cases hloop : maskLoop text (r0 :: rest) with
    | ok tailStr =>
      rw [hloop] at h
      cases h
      have ht := maskLoop_length text rest r0 tailStr hord hloop
      simp only [List.length_append, length_spaceOutDot, ht,
        length_sliceJs text 0 r0.start (Nat.zero_le _) (by omega)]
      omega
    | error e =>
      rw [hloop] at h
      simp at h

/-- Witness for claim C1 at a concrete document with one located range. -/
theorem claim_C1_mask_preserves_length_witness :
    rangesOrdered (("css\x60a:b\x60").data).length [⟨4, 7⟩] = true ∧
      (("    a:b ").data).length = (("css\x60a:b\x60").data).length :=
  ⟨by decide, claim_C1_mask_preserves_length (("css\x60a:b\x60").data) [⟨4, 7⟩]
    (("    a:b ").data) (by decide) (by decide)⟩

/-- Claim C2: the claim asserts that inside a template range, characters in a
matched `$\x7b...\x7d` / `&&` / `\|\|` span become spaces and all other
characters are preserved, and in particular that the masker does not fault on
templates containing `&&` or `\|\|`.  The code contradicts the last part:
when the second alternative of `expressionPattern` matches, the replacement
callback evaluates `p1.replace` with `p1 === undefined` and raises a
`TypeError`.  This theorem evaluates the masker at the failing input: the
document `css\x60a&&b\x60` with its located range `[4, 8)` (payload
`a&&b`) makes `replaceAllWithSpacesExceptCss` fault instead of masking. -/
theorem claim_C2_mask_faults_on_logical_operator :
    replaceAllWithSpacesExceptCss (("css\x60a&&b\x60").data) [⟨4, 8⟩] =
      .error .undefinedGroup ∧
    replaceAllWithSpacesExceptCss (("css\x60a||b\x60").data) [⟨4, 8⟩] =
      .error .undefinedGroup := by
  constructor <;> decide

/-! ## Positional characterization of the masked text -/

theorem getElem?_spaceOutDot (l : List Char) (j : Nat) :
    (spaceOutDot l)[j]? = (l[j]?).map maskChar := by
  simp [spaceOutDot]

theorem getElem?_sliceJs (l : List Char) (a b j : Nat) (h : a + j < b) :
    (sliceJs l a b)[j]? = l[a + j]? := by
  unfold sliceJs
  rw [List.getElem?_drop]
  rw [List.getElem?_take_of_lt (by omega)]

theorem maskLoop_outside (text : List Char) (rest : List StyledJsxTaggedTemplate)
    (r : StyledJsxTaggedTemplate) (t : List Char) (p : Nat)
    (hord : rangesOrdered text.length (r :: rest) = true)
    (h : maskLoop text (r :: rest) = .ok t)
    (hg : r.start ≤ p) (hp : p < text.length)
    (hout : outsideAll (r :: rest) p = true) :
    t[p - r.start]? = (text[p]?).map maskChar := by
  induction rest generalizing r t with
  | nil =>
    obtain ⟨h1, h2⟩ := rangesOrdered_head text.length r [] hord
    simp only [outsideAll, List.all_cons, List.all_nil, Bool.and_true,
      Bool.or_eq_true, decide_eq_true_eq] at hout
    have hre : r.«end» ≤ p := by omega
    simp only [maskLoop] at h
    cases hbody : maskTemplateSlice (sliceJs text r.start r.«end») with
    | ok body =>
      rw [hbody] at h
      simp only [Except.map] at h
      cases h
      have hb := maskTemplateSlice_length _ _ hbody
      rw [length_sliceJs text r.start r.«end» h1 h2] at hb
      rw [List.getElem?_append_right (by omega)]
      rw [hb]
      rw [getElem?_spaceOutDot]
      rw [show p - r.start - (r.«end» - r.start) = p - r.«end» from by omega]
      rw [show (text[p]? : Option Char) = text[r.«end» + (p - r.«end»)]? from by
        rw [show r.«end» + (p - r.«end») = p from by omega]]
      rw [getElem?_sliceJs text r.«end» text.length (p - r.«end») (by omega)]
    | error e =>
      rw [hbody] at h
      simp [Except.map] at h
  | cons r2 rest ih =>
    have hord2 : rangesOrdered text.length (r :: r2 :: rest) = true := hord
    simp only [rangesOrdered, Bool.and_eq_true, decide_eq_true_eq] at hord2
    obtain ⟨⟨h1, h2⟩, h3⟩ := hord2
    obtain ⟨h4, h5⟩ := rangesOrdered_head text.length r2 rest h3
    simp only [outsideAll, List.all_cons, Bool.and_eq_true, Bool.or_eq_true,
      decide_eq_true_eq] at hout
    obtain ⟨houtr, houtr2, houtrest⟩ := hout
    have hre : r.«end» ≤ p := by omega
    simp only [maskLoop] at h
    cases hbody : maskTemplateSlice (sliceJs text r.start r.«end») with
    | ok body =>
      rw [hbody] at h
      cases hrec : maskLoop text (r2 :: rest) with
      | ok tail =>
        rw [hrec] at h
        cases h
        have hb := maskTemplateSlice_length _ _ hbody
        rw [length_sliceJs text r.start r.«end» h1 (by omega)] at hb
        rw [List.append_assoc]
        rw [List.getElem?_append_right (by omega)]
        rw [hb]
        rcases houtr2 with hlt | hge
        · rw [List.getElem?_append_left (by
            rw [show p - r.start - (r.«end» - r.start) = p - r.«end» from by omega]
            rw [length_spaceOutDot, length_sliceJs text r.«end» r2.start h2 (by omega)]
            omega)]
          rw [show p - r.start - (r.«end» - r.start) = p - r.«end» from by omega]
          rw [getElem?_spaceOutDot]
          rw [show (text[p]? : Option Char) = text[r.«end» + (p - r.«end»)]? from by
            rw [show r.«end» + (p - r.«end») = p from by omega]]
          rw [getElem?_sliceJs text r.«end» r2.start (p - r.«end») (by omega)]
        · have hg2 : r2.start ≤ p := by omega
          rw [List.getElem?_append_right (by
            rw [show p - r.start - (r.«end» - r.start) = p - r.«end» from by omega]
            rw [length_spaceOutDot, length_sliceJs text r.«end» r2.start h2 (by omega)]
            omega)]
          rw [show p - r.start - (r.«end» - r.start) -
              (spaceOutDot (sliceJs text r.«end» r2.start)).length =
              p - r2.start from by
            rw [length_spaceOutDot, length_sliceJs text r.«end» r2.start h2 (by omega)]
            omega]
          exact ih r2 tail h3 hrec hg2 (by
            simp only [outsideAll, List.all_cons, Bool.and_eq_true, Bool.or_eq_true,
              decide_eq_true_eq]
            exact ⟨Or.inr hge, houtrest⟩)
      | error e =>
        rw [hrec] at h
        simp at h
    | error e =>
      rw [hbody] at h
      simp at h

/-- Claim C4 (amended): at every position `p` outside every located template
range, the synthetic CSS document carries a SPACE unless the original
character at `p` is a line terminator, in which case it is preserved
unchanged (`/./g` does not match line terminators); in either case the
character is whitespace, but it is not always a space. -/
theorem claim_C4_outside_positions (text : List Char)
    (styledJsxTaggedTemplates : List StyledJsxTaggedTemplate) (out : List Char)
    (p : Nat)
    (hord : rangesOrdered text.length styledJsxTaggedTemplates = true)
    (h : replaceAllWithSpacesExceptCss text styledJsxTaggedTemplates = .ok out)
    (hp : p < text.length)
    (hout : outsideAll styledJsxTaggedTemplates p = true) :
    out[p]? = (text[p]?).map maskChar := by
  match styledJsxTaggedTemplates, hord, hout, h with
  | [], _, _, h => simp [replaceAllWithSpacesExceptCss] at h
  | r0 :: rest, hord, hout, h =>
    obtain ⟨h1, h2⟩ := rangesOrdered_head text.length r0 rest hord
    simp only [replaceAllWithSpacesExceptCss] at h
    cases hloop : maskLoop text (r0 :: rest) with
    | ok tailStr =>
      rw [hloop] at h
      cases h
      by_cases hcase : p < r0.start
      · rw [List.getElem?_append_left (by
          rw [length_spaceOutDot, length_sliceJs text 0 r0.start (Nat.zero_le _)
            (by omega)]
          omega)]
        rw [getElem?_spaceOutDot]
        rw [show (text[p]? : Option Char) = text[0 + p]? from by simp]
        rw [getElem?_sliceJs text 0 r0.start p (by omega)]
      · rw [List.getElem?_append_right (by
          rw [length_spaceOutDot, length_sliceJs text 0 r0.start (Nat.zero_le _)
            (by omega)]
          omega)]
        rw [show p - (spaceOutDot (sliceJs text 0 r0.start)).length =
            p - r0.start from by
          rw [length_spaceOutDot, length_sliceJs text 0 r0.start (Nat.zero_le _)
            (by omega)]
          omega]
        exact maskLoop_outside text rest r0 tailStr p hord hloop (by omega) hp hout
    | error e =>
      rw [hloop] at h
      simp at h

/-- Witness for claim C4 (amended) at a concrete document: position 0 of
`ab\ncd` with located range `[4, 5)` is outside the range and is masked to a
space. -/
theorem claim_C4_outside_positions_witness :
    rangesOrdered (("ab\ncd").data).length [⟨4, 5⟩] = true ∧
      outsideAll [⟨4, 5⟩] 0 = true ∧
      (("  \n d").data)[0]? = ((("ab\ncd").data)[0]?).map maskChar :=
  ⟨by decide, by decide,
    claim_C4_outside_positions (("ab\ncd").data) [⟨4, 5⟩] (("  \n d").data) 0
      (by decide) (by decide) (by decide) (by decide)⟩

/-- Counterexample for claim C4 as stated: in the document `ab\ncd` with
located range `[4, 5)`, position 2 is outside the range, yet the synthetic
document carries the original newline there, not a space. -/
theorem claim_C4_newline_not_space :
    replaceAllWithSpacesExceptCss (("ab\ncd").data) [⟨4, 5⟩] =
        .ok (("  \n d").data) ∧
      outsideAll [⟨4, 5⟩] 2 = true ∧
      (("  \n d").data)[2]? = some '\n' ∧
      decide ((("  \n d").data)[2]? = some ' ') = false := by
  refine ⟨by decide, by decide, by decide, by decide⟩

/-- Claim C3 (amended): `getStyledJsxUnderCursor` returns a result if and
only if the FIRST located template range strictly contains the cursor offset
(the guard reads `styledJsxTaggedTemplates[0]` only); cursor offsets equal
to that range's boundaries, or strictly inside any LATER range, yield
`undefined`. -/
theorem claim_C3_under_cursor_first_range_only (text : List Char)
    (parse : List Char → TsNodeTree) (cursorOffset : Nat) :
    (getStyledJsxUnderCursor text parse cursorOffset).isSome = true ↔
      ∃ t0, (findStyledJsxTaggedTemplate (parse text) [cursorOffset]).head? =
          some t0 ∧ t0.start < cursorOffset ∧ cursorOffset < t0.«end» := by
  unfold getStyledJsxUnderCursor
  cases hfind : findStyledJsxTaggedTemplate (parse text) [cursorOffset] with
  | nil => simp
  | cons t0 rest =>
    simp only [List.head?, Option.some.injEq, Bool.and_eq_true, decide_eq_true_eq]
    constructor
    · intro h
      by_cases hc : t0.start < cursorOffset ∧ cursorOffset < t0.«end»
      · exact ⟨t0, rfl, hc⟩
      · rw [if_neg (by simpa [Bool.and_eq_true, decide_eq_true_eq] using hc)] at h
        simp at h
    · rintro ⟨t1, rfl, hc1, hc2⟩
      rw [if_pos (by simp [hc1, hc2])]
      rfl

/-- Counterexample for claim C3 as stated: with two located templates (model
of a document containing two `css`-tagged templates, ranges `[1, 3)` and
`[5, 9)`), cursor offset 7 lies strictly inside the SECOND range, yet
`getStyledJsxUnderCursor` returns `undefined` because the guard only
inspects the first range. -/
theorem claim_C3_second_range_ignored :
    getStyledJsxUnderCursor (("0123456789").data)
        (fun _ => .internalNode
          [.tokenNode (some ⟨.taggedTemplateExpression ("css"), 0, 4⟩),
            .tokenNode (some ⟨.taggedTemplateExpression ("css"), 4, 10⟩)] none)
        7 = none ∧
      (findStyledJsxTaggedTemplate
        (.internalNode
          [.tokenNode (some ⟨.taggedTemplateExpression ("css"), 0, 4⟩),
            .tokenNode (some ⟨.taggedTemplateExpression ("css"), 4, 10⟩)] none)
        [7]).any (fun r => decide (r.start < 7) && decide (7 < r.«end»)) =
        true := by
  refine ⟨by decide, by decide⟩

/-! ## Template qualification -/

theorem includesAux_iff_infix (sub l : List Char) :
    includesAux sub l = true ↔ sub <:+: l := by
  induction l with
  | nil =>
    simp only [includesAux, List.isEmpty_iff, List.infix_nil]
  | cons a l ih =>
    simp only [includesAux, Bool.or_eq_true, List.isPrefixOf_iff_prefix, ih,
      List.infix_cons_iff]

theorem jsIncludes_iff_infix (s sub : String) :
    jsIncludes s sub = true ↔ sub.data <:+: s.data :=
  includesAux_iff_infix sub.data s.data

/-- Claim C5: a template literal is located as styled-jsx CSS if and only if
(a) its immediate parent is a tagged-template expression whose tag text
contains the substring `css`, or (b) it is the child of a JSX expression
container whose parent JSX element has opening tag name exactly `style` and
carries an attribute named `jsx` (whatever its value). -/
theorem claim_C5_template_qualification (t : TemplateNodeModel) :
    (isStyledJsxTaggedTemplate t || isStyledJsxTemplate t) = true ↔
      (∃ tagText, t.parent = .taggedTemplateExpression tagText ∧
          ("css").data <:+: tagText.data) ∨
        (∃ attributeNames, t.parent =
            .jsxExpression (.jsxElement ("style") attributeNames) ∧
          some ("jsx") ∈ attributeNames) := by
  cases hp : t.parent with
  | taggedTemplateExpression tagText =>
    simp only [isStyledJsxTaggedTemplate, isStyledJsxTemplate, hp,
      Bool.or_false, jsIncludes_iff_infix]
    constructor
    · intro h
      exact Or.inl ⟨tagText, rfl, h⟩
    · rintro (⟨tt, htt, h⟩ | ⟨attrs, habs, _⟩)
      · cases htt
        exact h
      · cases habs
  | jsxExpression grandparent =>
    cases grandparent with
    | jsxElement openingTagName attributeNames =>
      simp only [isStyledJsxTaggedTemplate, isStyledJsxTemplate, hp,
        Bool.false_or]
      by_cases hname : openingTagName = ("style")
      · subst hname
        rw [if_neg (by simp)]
        simp only [List.any_eq_true]
        constructor
        · rintro ⟨name?, hmem, hmatch⟩
          refine Or.inr ⟨attributeNames, rfl, ?_⟩
          match name?, hmatch with
          | some n, hmatch =>
            have : n = ("jsx") := by simpa using hmatch
            subst this
            exact hmem
        · rintro (⟨tt, htt, _⟩ | ⟨attrs, hattrs, hmem⟩)
          · cases htt
          · cases hattrs
            exact ⟨some ("jsx"), hmem, by simp⟩
      · rw [if_pos (by simpa using hname)]
        constructor
        · intro h
          cases h
        · rintro (⟨tt, htt, _⟩ | ⟨attrs, hattrs, _⟩)
          · cases htt
          · cases hattrs
            exact absurd rfl hname
    | otherNode =>
      simp only [isStyledJsxTaggedTemplate, isStyledJsxTemplate, hp]
      constructor
      · intro h
        simp at h
      · rintro (⟨tt, htt, _⟩ | ⟨attrs, hattrs, _⟩)
        · cases htt
        · cases hattrs
  | otherParent =>
    simp only [isStyledJsxTaggedTemplate, isStyledJsxTemplate, hp]
    constructor
    · intro h
      simp at h
    · rintro (⟨tt, htt, _⟩ | ⟨attrs, hattrs, _⟩)
      · cases htt
      · cases hattrs

/-! ## Walk and the empty-range guard -/

/-- Claim C6: the AST traversal never lets an exception escape — on every
tree and accumulator the walk reports no escaping exception (the escape flag
that `walkChildren` raises when `forEachChild` throws is always absorbed by
the `try`/`catch` of the enclosing `walk` call), so
`findStyledJsxTaggedTemplate` always returns a (possibly empty) list; and
when `forEachChild` of the source-file root throws immediately (the unknown
script kind hazard named in the source comment), the locator returns the
empty list — the document is treated as having no templates. -/
theorem claim_C6_walk_never_propagates :
    (∀ (node : TsNodeTree) (acc : List StyledJsxTaggedTemplate),
        (walkNode node acc).2 = false) ∧
      (∀ (children : List TsNodeTree) (cursorOffsets : List Nat),
        findStyledJsxTaggedTemplate (.internalNode children (some 0))
          cursorOffsets = []) := by
  constructor
  · intro node acc
    cases node <;> rfl
  · intro children cursorOffsets
    simp [findStyledJsxTaggedTemplate, walkNode, walkChildren]

/-- Claim C10: `findStyledJsxTaggedTemplate` never reads its cursor-offsets
argument — any two seed lists give identical results — and in
"template under cursor" mode the result is still the full walk of the whole
tree from an empty accumulator. -/
theorem claim_C10_locator_ignores_cursor_offsets (sourceTree : TsNodeTree)
    (offsets1 offsets2 : List Nat) :
    findStyledJsxTaggedTemplate sourceTree offsets1 =
        findStyledJsxTaggedTemplate sourceTree offsets2 ∧
      findStyledJsxTaggedTemplate sourceTree offsets1 =
        (walkNode sourceTree []).1 :=
  ⟨rfl, rfl⟩

theorem expressionMaskLoop_ne_emptyFault (fuel : Nat) (s : List Char) :
    expressionMaskLoop fuel s ≠ .error .emptyRangeList := by
  induction fuel generalizing s with
  | zero => simp [expressionMaskLoop]
  | succ fuel ih =>
    simp only [expressionMaskLoop]
    split
    · rename_i matchLen hm
      cases hrec : expressionMaskLoop fuel (s.drop matchLen) with
      | ok t0 => simp [Except.map]
      | error e =>
        have hne := ih (s.drop matchLen)
        rw [hrec] at hne
        simp only [Except.map]
        intro hcontra
        cases hcontra
        exact hne rfl
    · split
      · simp
      · cases s with
        | nil => simp
        | cons c rest =>
          show (expressionMaskLoop fuel rest).map (fun t => c :: t) ≠
            .error .emptyRangeList
          cases hrec : expressionMaskLoop fuel rest with
          | ok t0 => simp [Except.map]
          | error e =>
            have hne := ih rest
            rw [hrec] at hne
            simp only [Except.map]
            intro hcontra
            cases hcontra
            exact hne rfl

theorem maskLoop_ne_emptyFault (text : List Char)
    (rs : List StyledJsxTaggedTemplate) :
    maskLoop text rs ≠ .error .emptyRangeList := by
  induction rs with
  | nil => simp [maskLoop]
  | cons r rest ih =>
    cases rest with
    | nil =>
      simp only [maskLoop, Except.map]
      intro hcontra
      split at hcontra
      · rename_i e heq
        cases hcontra
        exact expressionMaskLoop_ne_emptyFault
          (sliceJs text r.start r.«end»).length (sliceJs text r.start r.«end») heq
      · simp at hcontra
    | cons r2 rest2 =>
      simp only [maskLoop]
      intro hcontra
      split at hcontra
      · rename_i e heq
        cases hcontra
        exact expressionMaskLoop_ne_emptyFault
          (sliceJs text r.start r.«end»).length (sliceJs text r.start r.«end») heq
      · rename_i body heq
        split at hcontra
        · rename_i e2 heq2
          cases hcontra
          rw [heq2] at ih
          exact ih rfl
        · simp at hcontra

theorem mask_ne_emptyFault_of_ne_nil (text : List Char)
    (rs : List StyledJsxTaggedTemplate) (hne : rs ≠ []) :
    replaceAllWithSpacesExceptCss text rs ≠ .error .emptyRangeList := by
  match rs, hne with
  | r0 :: rest, _ =>
    simp only [replaceAllWithSpacesExceptCss]
    intro hcontra
    split at hcontra
    · rename_i e heq
      cases hcontra
      have := maskLoop_ne_emptyFault text (r0 :: rest)
      exact this heq
    · simp at hcontra

/-- Claim C8: `replaceAllWithSpacesExceptCss` faults on an empty range list
(the unconditional `styledJsxTaggedTemplates[0]` access), and both public
entry points guard the call with a `length > 0` check, so the empty-list
fault is unreachable through `getStyledJsx` and `getStyledJsxUnderCursor`. -/
theorem claim_C8_empty_range_guard :
    (∀ text : List Char,
        replaceAllWithSpacesExceptCss text [] = .error .emptyRangeList) ∧
      (∀ (text : List Char) (parse : List Char → TsNodeTree),
        getStyledJsx text parse ≠ some (.error .emptyRangeList)) ∧
      (∀ (text : List Char) (parse : List Char → TsNodeTree)
        (cursorOffset : Nat),
        getStyledJsxUnderCursor text parse cursorOffset ≠
          some (.error .emptyRangeList)) := by
  refine ⟨fun text => rfl, fun text parse => ?_, fun text parse cursorOffset => ?_⟩
  · intro hcontra
    simp only [getStyledJsx] at hcontra
    split at hcontra
    · split at hcontra
      · rename_i hlen1 hlen2
        have := mask_ne_emptyFault_of_ne_nil text
          (findStyledJsxTaggedTemplate (parse text)
            (getApproximateStyledJsxOffsets text))
          (by
            intro hnil
            rw [hnil] at hlen2
            simp at hlen2)
        exact this (Option.some.inj hcontra)
      · simp at hcontra
    · simp at hcontra
  · intro hcontra
    simp only [getStyledJsxUnderCursor] at hcontra
    split at hcontra
    · simp at hcontra
    · rename_i t0 rest heq
      split at hcontra
      · have := mask_ne_emptyFault_of_ne_nil text
          (findStyledJsxTaggedTemplate (parse text) [cursorOffset])
          (by rw [heq]; simp)
        exact this (Option.some.inj hcontra)
      · simp at hcontra

/-- Witness for claim C8's guard conjuncts at a concrete document and
parser. -/
theorem claim_C8_empty_range_guard_witness :
    getStyledJsx (("css\x60x\x60").data) (fun _ => .endOfFileToken) ≠
        some (.error .emptyRangeList) ∧
      getStyledJsxUnderCursor (("css\x60x\x60").data)
          (fun _ => .endOfFileToken) 5 ≠
        some (.error .emptyRangeList) :=
  ⟨claim_C8_empty_range_guard.2.1 (("css\x60x\x60").data)
      (fun _ => .endOfFileToken),
    claim_C8_empty_range_guard.2.2 (("css\x60x\x60").data)
      (fun _ => .endOfFileToken) 5⟩

/-! ## Scanner-miss behavior and the rename capability -/

theorem firstMatchEndFrom_none (text : List Char) (pos : Nat)
    (h : ∀ i ∈ List.range (text.length + 1), matchStyledJsxAt text i = none) :
    firstMatchEndFrom text pos = none := by
  simp only [firstMatchEndFrom, List.findSome?_eq_none_iff]
  intro i hi
  split
  · rfl
  · exact h i hi

/-- Claim C7 (amended): when the document text contains no match of the
scanner pattern, the scanner returns the empty offset list, `getStyledJsx`
returns `undefined` (the masker inside it is never reached), every
`getStyledJsx`-based dispatcher returns its capability-specific empty/null
result without throwing, and the published diagnostics are the empty list.
(The completion dispatcher goes through `getStyledJsxUnderCursor`, which
does not consult the scanner — see the counterexample.) -/
theorem claim_C7_scanner_miss_empty_results (text : List Char)
    (parse : List Char → TsNodeTree) (α : Type)
    (service : List Char → α) (serviceList : List Char → List α)
    (h : (List.range (text.length + 1)).all
      (fun i => (matchStyledJsxAt text i).isNone) = true) :
    getApproximateStyledJsxOffsets text = [] ∧
      getStyledJsx text parse = none ∧
      onHoverHandler (some text) parse service = .ok none ∧
      onDocumentSymbolHandler (some text) parse service = .ok none ∧
      onDefinitionHandler (some text) parse service = .ok none ∧
      onDocumentHighlightHandler (some text) parse service = .ok none ∧
      onReferencesHandler (some text) parse service = .ok none ∧
      onCodeActionHandler (some text) parse service = .ok none ∧
      onRenameRequestHandler (some text) parse service = .ok none ∧
      onDocumentColorHandler (some text) parse serviceList = .ok [] ∧
      onColorPresentationHandler (some text) parse serviceList = .ok [] ∧
      validateTextDocument text parse serviceList = .ok [] := by
  have hnone : ∀ i ∈ List.range (text.length + 1),
      matchStyledJsxAt text i = none := by
    intro i hi
    have hh := List.all_eq_true.mp h i hi
    simpa [Option.isNone_iff_eq_none] using hh
  have hfirst : firstMatchEndFrom text 0 = none :=
    firstMatchEndFrom_none text 0 hnone
  have hoff : getApproximateStyledJsxOffsets text = [] := by
    simp only [getApproximateStyledJsxOffsets, styledJsxExecLoop, hfirst]
  have hsj : getStyledJsx text parse = none := by
    simp [getStyledJsx, hoff]
  refine ⟨hoff, hsj, ?_, ?_, ?_, ?_, ?_, ?_, ?_, ?_, ?_, ?_⟩ <;>
    simp [onHoverHandler, onDocumentSymbolHandler, onDefinitionHandler,
      onDocumentHighlightHandler, onReferencesHandler, onCodeActionHandler,
      onRenameRequestHandler, onDocumentColorHandler,
      onColorPresentationHandler, onNullableHandler, onEmptyArrayHandler,
      validateTextDocument, hsj]

/-- Witness for claim C7 (amended) at a concrete scanner-miss document. -/
theorem claim_C7_scanner_miss_empty_results_witness :
    getApproximateStyledJsxOffsets (("hello world").data) = [] ∧
      getStyledJsx (("hello world").data) (fun _ => .endOfFileToken) = none ∧
      onHoverHandler (some (("hello world").data)) (fun _ => .endOfFileToken)
          (fun _ => (0 : Nat)) = .ok none ∧
      onDocumentSymbolHandler (some (("hello world").data))
          (fun _ => .endOfFileToken) (fun _ => (0 : Nat)) = .ok none ∧
      onDefinitionHandler (some (("hello world").data))
          (fun _ => .endOfFileToken) (fun _ => (0 : Nat)) = .ok none ∧
      onDocumentHighlightHandler (some (("hello world").data))
          (fun _ => .endOfFileToken) (fun _ => (0 : Nat)) = .ok none ∧
      onReferencesHandler (some (("hello world").data))
          (fun _ => .endOfFileToken) (fun _ => (0 : Nat)) = .ok none ∧
      onCodeActionHandler (some (("hello world").data))
          (fun _ => .endOfFileToken) (fun _ => (0 : Nat)) = .ok none ∧
      onRenameRequestHandler (some (("hello world").data))
          (fun _ => .endOfFileToken) (fun _ => (0 : Nat)) = .ok none ∧
      onDocumentColorHandler (some (("hello world").data))
          (fun _ => .endOfFileToken) (fun _ => ([] : List Nat)) = .ok [] ∧
      onColorPresentationHandler (some (("hello world").data))
          (fun _ => .endOfFileToken) (fun _ => ([] : List Nat)) = .ok [] ∧
      validateTextDocument (("hello world").data) (fun _ => .endOfFileToken)
          (fun _ => ([] : List Nat)) = .ok [] :=
  claim_C7_scanner_miss_empty_results (("hello world").data)
    (fun _ => .endOfFileToken) Nat (fun _ => 0) (fun _ => []) (by decide)

/-- Counterexample for claim C7 as stated: the completion dispatcher is not
gated by the scanner.  The document `styles.css.thing\x60ab\x60` contains
no match of the scanner pattern (no `<style jsx>` and no `css`-backtick
marker), yet its tagged template qualifies in the locator because the tag
text `styles.css.thing` contains the substring `css`, so completion inside
the template returns the CSS service's result instead of the
capability-specific null. -/
theorem claim_C7_completion_not_scanner_gated :
    (List.range ((("styles.css.thing\x60ab\x60").data).length + 1)).all
        (fun i =>
          (matchStyledJsxAt (("styles.css.thing\x60ab\x60").data) i).isNone) =
        true ∧
      onCompletionHandler (some (("styles.css.thing\x60ab\x60").data))
          (fun _ => .internalNode
            [.tokenNode (some
              ⟨.taggedTemplateExpression ("styles.css.thing"), 16, 20⟩)] none)
          18 (fun _ => (0 : Nat)) = .ok (some 0) ∧
      decide (onCompletionHandler (some (("styles.css.thing\x60ab\x60").data))
          (fun _ => .internalNode
            [.tokenNode (some
              ⟨.taggedTemplateExpression ("styles.css.thing"), 16, 20⟩)] none)
          18 (fun _ => (0 : Nat)) = (.ok none : Except MaskErr (Option Nat))) =
        false := by
  refine ⟨by decide, by decide, by decide⟩

/-- Claim C9 (amended): the initialize response advertises
`renameProvider: false`, and a rename handler is nonetheless wired up — but
it does not always return nothing: it is shaped exactly like the other
nullable dispatchers, returning `null` when the document is missing or has
no styled-jsx, and the CSS service's rename result when extraction
succeeds. -/
theorem claim_C9_rename_declared_off_but_live (α : Type) :
    (∀ snippetSupport : Bool,
        (initializeCapabilities snippetSupport).renameProvider = false) ∧
      (∀ (parse : List Char → TsNodeTree) (doRename : List Char → α),
        onRenameRequestHandler none parse doRename = .ok none) ∧
      (∀ (text : List Char) (parse : List Char → TsNodeTree)
        (doRename : List Char → α),
        getStyledJsx text parse = none →
          onRenameRequestHandler (some text) parse doRename = .ok none) ∧
      (∀ (text cssText : List Char) (parse : List Char → TsNodeTree)
        (doRename : List Char → α),
        getStyledJsx text parse = some (.ok cssText) →
          onRenameRequestHandler (some text) parse doRename =
            .ok (some (doRename cssText))) := by
  refine ⟨fun _ => rfl, fun _ _ => rfl, ?_, ?_⟩
  · intro text parse doRename hsj
    simp [onRenameRequestHandler, onNullableHandler, hsj]
  · intro text cssText parse doRename hsj
    simp [onRenameRequestHandler, onNullableHandler, hsj]

/-- Witness for claim C9 (amended): a concrete document whose extraction
succeeds, on which the wired-up handler returns the service's edit. -/
theorem claim_C9_rename_declared_off_but_live_witness :
    getStyledJsx (("css\x60x\x60").data)
        (fun _ => .internalNode
          [.tokenNode (some ⟨.taggedTemplateExpression ("css"), 3, 6⟩)] none) =
      some (.ok (("    x ").data)) ∧
      onRenameRequestHandler (some (("css\x60x\x60").data))
        (fun _ => .internalNode
          [.tokenNode (some ⟨.taggedTemplateExpression ("css"), 3, 6⟩)] none)
        (fun _ => (42 : Nat)) = .ok (some 42) :=
  ⟨by decide,
    (claim_C9_rename_declared_off_but_live Nat).2.2.2 (("css\x60x\x60").data)
      (("    x ").data)
      (fun _ => .internalNode
        [.tokenNode (some ⟨.taggedTemplateExpression ("css"), 3, 6⟩)] none)
      (fun _ => 42) (by decide)⟩

/-- Counterexample for claim C9 as stated: the rename operation does NOT
always return nothing — on a styled-jsx document the wired-up handler
returns the CSS service's rename edit. -/
theorem claim_C9_rename_not_always_nothing :
    onRenameRequestHandler (some (("css\x60y\x60").data))
        (fun _ => .internalNode
          [.tokenNode (some ⟨.taggedTemplateExpression ("css"), 3, 6⟩)] none)
        (fun _ => (7 : Nat)) = .ok (some 7) ∧
      decide (onRenameRequestHandler (some (("css\x60y\x60").data))
          (fun _ => .internalNode
            [.tokenNode (some ⟨.taggedTemplateExpression ("css"), 3, 6⟩)] none)
          (fun _ => (7 : Nat)) = (.ok none : Except MaskErr (Option Nat))) =
        false := by
  refine ⟨by decide, by decide⟩
